import Mathlib

/-!
# Keypad input pipeline of `main/main.c`

Shallow embedding of the keypad code of the firmware: the interrupt handler
`gpio_isr_handler`, the worker loop `gpio_task_handler`, the periodic timer
callback `keypad_cb` and the LVGL read callback `lv_keypad_read`, together with
the statements that are checked against them.

Machine integers are natural numbers reduced explicitly: `uint8_t` fields
modulo `2^8`, the `uint16_t` callback counter modulo `2^16`, FreeRTOS ticks
(`TickType_t`, 32 bit) modulo `2^32`.

The three contexts that touch the shared state (worker task, timer callback,
read callback) are interleaved as atomic steps `Ev`; a run is a list of steps.
Time enters a run through the tick carried by each handled edge and through the
number of timer callbacks (one every 20 ms while the timer runs); the end-to-end
statements take one tick as 1 ms.
-/

namespace Keypad

/-! ## Constants -/

/-- Logic level `HIGH` of `main.c` (line released, pull-up). -/
def HIGH : Nat := 1

/-- Logic level `LOW` of `main.c` (line pressed). -/
def LOW : Nat := 0

/-- Pin of the OK button, `GPIO_NUM_0`. -/
def BUTTON_OK : Nat := 0

/-- Pin of the DOWN button, `GPIO_NUM_11`. -/
def BUTTON_DW : Nat := 11

/-- Pin of the UP button, `GPIO_NUM_10`. -/
def BUTTON_UP : Nat := 10

/-- Pin of the MENU button, `GPIO_NUM_14`. -/
def BUTTON_MENU : Nat := 14

/-- Modelled from the spec: the key symbol ENTER; `LV_KEY_ENTER` is declared in
`lvgl.h`, which is not part of the sources, and carries LVGL's number. -/
def LV_KEY_ENTER : Nat := 10

/-- Modelled from the spec: the key symbol ESCAPE (`LV_KEY_ESC` of `lvgl.h`). -/
def LV_KEY_ESC : Nat := 27

/-- Modelled from the spec: the key symbol LEFT (`LV_KEY_LEFT` of `lvgl.h`). -/
def LV_KEY_LEFT : Nat := 20

/-- Modelled from the spec: the key symbol RIGHT (`LV_KEY_RIGHT` of `lvgl.h`). -/
def LV_KEY_RIGHT : Nat := 19

/-- Modelled from the spec: the key symbol NEXT (`LV_KEY_NEXT` of `lvgl.h`). -/
def LV_KEY_NEXT : Nat := 9

/-- Modelled from the spec: the key symbol PREVIOUS (`LV_KEY_PREV` of `lvgl.h`). -/
def LV_KEY_PREV : Nat := 11

/-- Modelled from the spec: the reported state "released"
(`LV_INDEV_STATE_REL` of `lvgl.h`). -/
def LV_INDEV_STATE_REL : Nat := 0

/-- Modelled from the spec: the reported state "pressed"
(`LV_INDEV_STATE_PR` of `lvgl.h`). -/
def LV_INDEV_STATE_PR : Nat := 1

/-- Capacity of `gpio_evt_queue`, the first argument of `xQueueCreate` in
`keypad_init`. -/
def QUEUE_LENGTH : Nat := 10

/-! ## Data model -/

/-- The struct `keypad_t`: `num` is the active line, `clicks` the click count,
`state` the pending key symbol (0 is none), `level` the last level read. -/
structure keypad_t where
  num : Nat
  clicks : Nat
  state : Nat
  level : Nat
deriving DecidableEq, Repr

/-- The record `lv_indev_data_t`, restricted to the two fields that
`lv_keypad_read` writes. -/
structure lv_indev_data_t where
  state : Nat
  key : Nat
deriving DecidableEq, Repr

/-- All mutable state of the keypad pipeline: the global `keypad`, whether the
periodic timer `timer_handle` is running, the function-static `count` of
`keypad_cb`, the local `tick` of `gpio_task_handler`, the function-static
`last_key` of `lv_keypad_read`, and the two indicator outputs. -/
structure Sys where
  keypad : keypad_t
  timer_active : Bool
  count : Nat
  tick : Nat
  last_key : Nat
  led_green : Nat
  led_yellow : Nat
deriving DecidableEq, Repr

/-- State at start-up: `keypad` is zero-initialised, the timer is created but
not started, `count`, `tick` and `last_key` start at 0. -/
def init : Sys :=
  { keypad := { num := 0, clicks := 0, state := 0, level := 0 },
    timer_active := false, count := 0, tick := 0, last_key := 0,
    led_green := 0, led_yellow := 0 }

/-- The four button lines for which `keypad_init` registers the interrupt
handler. -/
inductive Button where
  | ok
  | dw
  | up
  | menu
deriving DecidableEq, Repr, Fintype

/-- Pin number of a button line (the argument registered with
`gpio_isr_handler_add`). -/
def Button.io_num : Button → Nat
  | .ok => BUTTON_OK
  | .dw => BUTTON_DW
  | .up => BUTTON_UP
  | .menu => BUTTON_MENU

/-! ## The three routines -/

/-- One iteration of the loop of `gpio_task_handler` after `xQueueReceive`
delivered `io_num`, up to and including the `switch` that drives the two
indicator outputs: `level` is the value returned by `gpio_get_level(io_num)`
and `now` the value of `xTaskGetTickCount()` (both calls within one iteration
are taken to return the same tick). The settle delay and `gpio_intr_enable`
that end the iteration do not touch this state; they are the step
`Act.finish` of the board below. -/
def gpio_task_handler (s : Sys) (io_num level now : Nat) : Sys :=
  let level8 := level % 256
  let kp0 : keypad_t := { s.keypad with num := io_num % 256, level := level8 }
  let s1 : Sys := { s with keypad := kp0 }
  let s2 : Sys :=
    if level8 = 0 then
      (if s1.timer_active then s1 else { s1 with timer_active := true })
    else
      let c1 := if kp0.clicks = 0 then (kp0.clicks + 1) % 256 else kp0.clicks
      let c2 := if (now % 2 ^ 32 + 2 ^ 32 - s1.tick) % 2 ^ 32 < 300 then (c1 + 1) % 256 else c1
      let t := if c2 > 0 then now % 2 ^ 32 else s1.tick
      { s1 with keypad := { kp0 with clicks := c2 }, tick := t }
  let nl : Nat := if level8 = 0 then 1 else 0
  if io_num = BUTTON_OK then { s2 with led_green := nl, led_yellow := nl }
  else if io_num = BUTTON_DW then { s2 with led_green := nl }
  else if io_num = BUTTON_UP then { s2 with led_yellow := nl }
  else if io_num = BUTTON_MENU then { s2 with led_green := nl, led_yellow := nl }
  else s2

/-- The timer callback `keypad_cb`; `pin_level` is the value returned by
`gpio_get_level(keypad.num)`. -/
def keypad_cb (s : Sys) (pin_level : Nat) : Sys :=
  let count := (s.count + 1) % 65536
  if count > 24 then
    let st : Nat :=
      if s.keypad.num = BUTTON_OK then
        (if s.keypad.clicks = 1 then LV_KEY_ENTER
         else if s.keypad.clicks = 2 then LV_KEY_ESC
         else s.keypad.state)
      else if s.keypad.num = BUTTON_DW then LV_KEY_LEFT
      else if s.keypad.num = BUTTON_UP then LV_KEY_RIGHT
      else if s.keypad.num = BUTTON_MENU then
        (if s.keypad.clicks = 1 then LV_KEY_NEXT
         else if s.keypad.clicks = 2 then LV_KEY_PREV
         else s.keypad.state)
      else s.keypad.state
    if pin_level ≠ 0 then
      { s with keypad := { s.keypad with state := st, clicks := 0 },
               timer_active := false, count := 0 }
    else
      { s with keypad := { s.keypad with state := st }, count := count }
  else
    { s with count := count }

/-- The input-device read callback `lv_keypad_read`: returns the new state and
the record written through `data`. -/
def lv_keypad_read (s : Sys) : Sys × lv_indev_data_t :=
  let st : Nat := if s.keypad.state ≠ 0 then LV_INDEV_STATE_PR else LV_INDEV_STATE_REL
  let lk : Nat := if s.keypad.state ≠ 0 then s.keypad.state else s.last_key
  ({ s with keypad := { s.keypad with state := 0 }, last_key := lk },
   { state := st, key := lk })

/-! ## Steps and runs -/

/-- One step of the pipeline as seen by the shared state: the worker handles a
dequeued line and reads it high or low at tick `now`; the periodic timer fires
and reads the active line high or low; or the framework polls the sink. -/
inductive Ev where
  | edge (b : Button) (high : Bool) (now : Nat)
  | timer (high : Bool)
  | read
deriving DecidableEq, Repr

/-- Level value returned by `gpio_get_level` for a line that is high or low. -/
def levelOf (high : Bool) : Nat := if high then HIGH else LOW

/-- State after one step. The callback of the periodic timer only runs while
the timer is started; a timer step on a stopped timer changes nothing. -/
def next (s : Sys) : Ev → Sys
  | .edge b high now => gpio_task_handler s b.io_num (levelOf high) now
  | .timer high => if s.timer_active then keypad_cb s (levelOf high) else s
  | .read => (lv_keypad_read s).1

/-- What one step reports to the framework: a poll reports one record. -/
def output (s : Sys) : Ev → List lv_indev_data_t
  | .read => [(lv_keypad_read s).2]
  | _ => []

/-- State after a sequence of steps. -/
def exec (s : Sys) : List Ev → Sys
  | [] => s
  | e :: es => exec (next s e) es

/-- The records reported by the polls of a sequence of steps, in order. -/
def reports (s : Sys) : List Ev → List lv_indev_data_t
  | [] => []
  | e :: es => output s e ++ reports (next s e) es

/-- The value of the pending symbol after each step of a sequence. -/
def pendings (s : Sys) : List Ev → List Nat
  | [] => []
  | e :: es => (next s e).keypad.state :: pendings (next s e) es

/-- Number of timer steps in a sequence. -/
def callbacks : List Ev → Nat
  | [] => 0
  | .timer _ :: es => callbacks es + 1
  | _ :: es => callbacks es

/-- Number of polls in a sequence. -/
def polls : List Ev → Nat
  | [] => 0
  | .read :: es => polls es + 1
  | _ :: es => polls es

/-- A stretch during which the active line is held low and no edge is handled:
polls and timer callbacks that read low. -/
def lowPhase (l : List Ev) : Prop := ∀ e ∈ l, e = Ev.read ∨ e = Ev.timer false

/-- A stretch during which the active line is high and no edge is handled:
polls and timer callbacks that read high. -/
def highPhase (l : List Ev) : Prop := ∀ e ∈ l, e = Ev.read ∨ e = Ev.timer true

/-- One timer period of 20 ms in the schedule: the four polls of the sink, which
is polled every 5 ms, followed by the callback of the periodic timer that ends
the period and reads the active line high or low. Handled edges are placed
between periods, right after a callback. -/
def period (high : Bool) : List Ev := [.read, .read, .read, .read, .timer high]

/-- The schedule of `n` consecutive timer periods. -/
def periods : Nat → Bool → List Ev
  | 0, _ => []
  | n + 1, high => period high ++ periods n high

/-- Expected symbol of a single click, from the table of the specification
(column click count 1); compared below with what `keypad_cb` writes. -/
def singleSym : Button → Nat
  | .ok => LV_KEY_ENTER
  | .dw => LV_KEY_LEFT
  | .up => LV_KEY_RIGHT
  | .menu => LV_KEY_NEXT

/-- Expected symbol for click count 2, from the table of the specification
(column click count 2); compared below with what `keypad_cb` writes. -/
def doubleSym : Button → Nat
  | .ok => LV_KEY_ESC
  | .dw => LV_KEY_LEFT
  | .up => LV_KEY_RIGHT
  | .menu => LV_KEY_PREV

/-- A stretch without handled edges: polls and timer callbacks only. -/
def noEdge (l : List Ev) : Prop :=
  ∀ e ∈ l, e = Ev.read ∨ e = Ev.timer true ∨ e = Ev.timer false

/-- A state between click cycles: timer stopped, callback counter 0, click
count 0 and no pending symbol. -/
def Idle (s : Sys) : Prop :=
  s.timer_active = false ∧ s.count = 0 ∧ s.keypad.clicks = 0 ∧ s.keypad.state = 0

/-- Difference `a - b` of the tick `a` read now and a stored tick `b` in unsigned
32-bit arithmetic, as computed by `xTaskGetTickCount() - tick`. -/
def tickDiff (a b : Nat) : Nat := (a % 2 ^ 32 + 2 ^ 32 - b) % 2 ^ 32

/-- A clean schedule with the buttons pressed one at a time: the argument is the
button currently held low, if any. While no button is held the next handled edge
is a press (read low) of any button; while a button is held the next handled
edge is the release (read high) of that button. Every timer callback reads the
level the active line has at that time: low while a button is held, high
otherwise. -/
def oneAtATime : Option Button → List Ev → Bool
  | _, [] => true
  | none, .edge b high _ :: es => (high == false) && oneAtATime (some b) es
  | some b0, .edge b high _ :: es => decide (b = b0) && (high == true) && oneAtATime none es
  | held, .timer high :: es => (high == held.isNone) && oneAtATime held es
  | held, .read :: es => oneAtATime held es

/-- The schedule in which OK is pressed at tick 1000 and held, the timer runs
and every callback reads the line low, and from tick 1041 on the worker handles
`n` events on OK that read high, 40 ticks apart (a held button whose contact
opens for an instant every 40 ms: the worker has re-enabled the interrupt of the
line 30 ticks after the previous event, and the falling edge that follows each
opening is lost while the interrupt is disabled). -/
def chatter : Nat → List Ev
  | 0 => [Ev.edge Button.ok false 1000, Ev.timer false, Ev.timer false]
  | n + 1 =>
      chatter n ++ [Ev.edge Button.ok true (1041 + 40 * n), Ev.timer false, Ev.timer false]

/-- The fields of the state that decide what the sink reports: active line,
click count, pending symbol, timer running, callback counter, last-click tick
and remembered key. -/
def Core (s : Sys) (num clicks state : Nat) (active : Bool) (count tick key : Nat) : Prop :=
  s.keypad.num = num ∧ s.keypad.clicks = clicks ∧ s.keypad.state = state ∧
    s.timer_active = active ∧ s.count = count ∧ s.tick = tick ∧ s.last_key = key

/-- Click count after the worker handled a release: `c` is the count before and
`d` the unsigned tick difference to the last recorded click. -/
def clicksAfterRelease (c d : Nat) : Nat :=
  if d < 300 then ((if c = 0 then (c + 1) % 256 else c) + 1) % 256
  else (if c = 0 then (c + 1) % 256 else c)

/-- One clean click cycle on button `b` from an idle state: the press handled
at tick `tp`, the stretch `mid` while the line is held, the release handled at
tick `now`, the stretch `post1` up to the callback that finalizes, that
callback, and `n` polls after it. -/
def clickCycle (b : Button) (tp : Nat) (mid : List Ev) (now : Nat) (post1 : List Ev)
    (n : Nat) : List Ev :=
  Ev.edge b false tp :: (mid ++ Ev.edge b true now :: (post1 ++
    Ev.timer true :: List.replicate n Ev.read))

/-- Two clean press-release pairs, the first on `a` and the second on `b`,
inside one timer window: the stretches `m1` and `m3` have the active line held
low, `m2` and `post1` have it high, then comes the finalizing callback and `n`
polls. -/
def twoClicks (a b : Button) (t1 : Nat) (m1 : List Ev) (r1 : Nat) (m2 : List Ev)
    (t2 : Nat) (m3 : List Ev) (r2 : Nat) (post1 : List Ev) (n : Nat) : List Ev :=
  Ev.edge a false t1 :: (m1 ++ Ev.edge a true r1 :: (m2 ++ Ev.edge b false t2 ::
    (m3 ++ Ev.edge b true r2 :: (post1 ++ Ev.timer true :: List.replicate n Ev.read))))

/-! ## Interrupt bracketing -/

/-- The pipeline together with the interrupt side: which lines have their
interrupt enabled, the content of `gpio_evt_queue` (oldest first), and the line
the worker holds between `xQueueReceive` and `gpio_intr_enable`. -/
structure Board where
  sys : Sys
  intr_enabled : Button → Bool
  gpio_evt_queue : List Button
  handling : Option Button

/-- Board after `keypad_init`: all four interrupts enabled, queue empty, worker
blocked on the queue. -/
def boot : Board :=
  { sys := init, intr_enabled := fun _ => true, gpio_evt_queue := [], handling := none }

/-- The interrupt handler `gpio_isr_handler` for line `b`: disable the
interrupt of the line, then `xQueueSendFromISR`, which drops the item when the
queue is full. -/
def gpio_isr_handler (w : Board) (b : Button) : Board :=
  let w1 : Board :=
    { w with intr_enabled := fun x => if x = b then false else w.intr_enabled x }
  if w1.gpio_evt_queue.length < QUEUE_LENGTH then
    { w1 with gpio_evt_queue := w1.gpio_evt_queue ++ [b] }
  else w1

/-- Steps of the board: the interrupt of a line fires, the worker receives the
oldest queued line and runs the body of its loop, or the worker finishes the
settle delay and calls `gpio_intr_enable`. -/
inductive Act where
  | isr (b : Button)
  | receive (high : Bool) (now : Nat)
  | finish

/-- One step of the board; `none` when the step cannot be taken: an interrupt
only fires on a line whose interrupt is enabled, the worker only receives when
it is blocked on a non-empty queue and only finishes a line it holds. -/
def Board.step (w : Board) : Act → Option Board
  | .isr b => if w.intr_enabled b then some (gpio_isr_handler w b) else none
  | .receive high now =>
      match w.handling, w.gpio_evt_queue with
      | none, b :: q =>
          some { w with sys := gpio_task_handler w.sys b.io_num (levelOf high) now,
                        gpio_evt_queue := q, handling := some b }
      | _, _ => none
  | .finish =>
      match w.handling with
      | some b =>
          some { w with intr_enabled := fun x => if x = b then true else w.intr_enabled x,
                        handling := none }
      | none => none

/-- The board after a sequence of steps, `none` if one of them cannot be
taken. -/
def Board.run (w : Board) : List Act → Option Board
  | [] => some w
  | a :: rest =>
      match w.step a with
      | some w1 => w1.run rest
      | none => none

/-- The bracketing invariant: the queue has no duplicates, every queued line
has its interrupt disabled, and so has the line the worker holds, which is not
in the queue. -/
def Bracketed (w : Board) : Prop :=
  w.gpio_evt_queue.Nodup ∧
    (∀ b ∈ w.gpio_evt_queue, w.intr_enabled b = false) ∧
    (∀ b, w.handling = some b → w.intr_enabled b = false ∧ b ∉ w.gpio_evt_queue)

/-! ## Runs: basic facts -/

theorem exec_append (s : Sys) (l1 l2 : List Ev) :
    exec s (l1 ++ l2) = exec (exec s l1) l2 := by
  induction l1 generalizing s with
  | nil => rfl
  | cons e es ih => simp [exec, ih]

theorem reports_append (s : Sys) (l1 l2 : List Ev) :
    reports s (l1 ++ l2) = reports s l1 ++ reports (exec s l1) l2 := by
  induction l1 generalizing s with
  | nil => rfl
  | cons e es ih => simp [exec, reports, ih]

theorem pendings_append (s : Sys) (l1 l2 : List Ev) :
    pendings s (l1 ++ l2) = pendings s l1 ++ pendings (exec s l1) l2 := by
  induction l1 generalizing s with
  | nil => rfl
  | cons e es ih => simp [exec, pendings, ih]

theorem callbacks_append (l1 l2 : List Ev) :
    callbacks (l1 ++ l2) = callbacks l1 + callbacks l2 := by
  induction l1 with
  | nil => simp [callbacks]
  | cons e es ih =>
    cases e with
    | edge b h n => simpa [callbacks] using ih
    | timer h =>
      show callbacks (es ++ l2) + 1 = callbacks es + 1 + callbacks l2
      rw [ih]
      omega
    | read => simpa [callbacks] using ih

theorem polls_append (l1 l2 : List Ev) :
    polls (l1 ++ l2) = polls l1 + polls l2 := by
  induction l1 with
  | nil => simp [polls]
  | cons e es ih =>
    cases e with
    | edge b h n => simpa [polls] using ih
    | timer h => simpa [polls] using ih
    | read =>
      show polls (es ++ l2) + 1 = polls es + 1 + polls l2
      rw [ih]
      omega

theorem noEdge_of_lowPhase {l : List Ev} (h : lowPhase l) : noEdge l := by
  intro e he
  rcases h e he with h1 | h1
  · exact Or.inl h1
  · exact Or.inr (Or.inr h1)

theorem noEdge_of_highPhase {l : List Ev} (h : highPhase l) : noEdge l := by
  intro e he
  rcases h e he with h1 | h1
  · exact Or.inl h1
  · exact Or.inr (Or.inl h1)

/-- A poll with no pending symbol leaves the state as it is. -/
theorem next_read_clear (s : Sys) (h : s.keypad.state = 0) : next s Ev.read = s := by
  rcases s with ⟨⟨num, clicks, state, level⟩, ta, c, t, lk, lg, ly⟩
  simp only at h
  subst h
  simp [next, lv_keypad_read]

/-- A poll with no pending symbol reports "released" with the remembered key. -/
theorem output_read_clear (s : Sys) (h : s.keypad.state = 0) :
    output s Ev.read = [{ state := LV_INDEV_STATE_REL, key := s.last_key }] := by
  simp [output, lv_keypad_read, h]

/-- A callback whose incremented counter stays at or below 24 only counts. -/
theorem keypad_cb_counting (s : Sys) (lvl : Nat) (h : (s.count + 1) % 65536 ≤ 24) :
    keypad_cb s lvl = { s with count := (s.count + 1) % 65536 } := by
  have h2 : ¬ (s.count + 1) % 65536 > 24 := by omega
  simp [keypad_cb, h2]

/-- A callback on OK or MENU with click count 0 that reads the line low only
counts, whatever the counter. -/
theorem keypad_cb_held (s : Sys) (hc : s.keypad.clicks = 0)
    (hn : s.keypad.num = BUTTON_OK ∨ s.keypad.num = BUTTON_MENU) :
    keypad_cb s LOW = { s with count := (s.count + 1) % 65536 } := by
  rcases s with ⟨⟨num, clicks, state, level⟩, ta, c, t, lk, lg, ly⟩
  simp only at hc hn
  subst hc
  rcases hn with hn | hn <;>
    simp [hn, keypad_cb, LOW, BUTTON_OK, BUTTON_DW, BUTTON_UP, BUTTON_MENU]

/-- Polls while nothing is pending change nothing and report "released". -/
theorem idle_polls (n : Nat) (s : Sys) (h : s.keypad.state = 0) :
    exec s (List.replicate n Ev.read) = s ∧
      reports s (List.replicate n Ev.read) =
        List.replicate n { state := LV_INDEV_STATE_REL, key := s.last_key } ∧
      pendings s (List.replicate n Ev.read) = List.replicate n 0 := by
  induction n with
  | zero => simp [exec, reports, pendings]
  | succ k ih =>
    simp only [List.replicate_succ, exec, reports, pendings, next_read_clear s h,
      output_read_clear s h, ih, h]
    simp

/-- While the timer runs, nothing is pending and the counter stays at or below
24, polls and callbacks only advance the counter; every poll reports
"released" with the remembered key. -/
theorem quiet_phase (l : List Ev) : ∀ s : Sys, noEdge l → s.timer_active = true →
    s.keypad.state = 0 → s.count < 65536 →
    callbacks l ≤ 25 - (s.count + 1) % 65536 →
    exec s l = { s with count := (s.count + callbacks l) % 65536 } ∧
      reports s l =
        List.replicate (polls l) { state := LV_INDEV_STATE_REL, key := s.last_key } ∧
      pendings s l = List.replicate l.length 0 := by
  induction l with
  | nil =>
    intro s _ _ _ hc _
    have : s.count % 65536 = s.count := Nat.mod_eq_of_lt hc
    simp [exec, reports, pendings, callbacks, polls, this]
  | cons e es ih =>
    intro s hl ha hs hc hb
    have hes : noEdge es := fun x hx => hl x (List.mem_cons_of_mem _ hx)
    have hcase : e = Ev.read ∨ ∃ h, e = Ev.timer h := by
      rcases hl e (List.mem_cons_self _ _) with he | he | he
      · exact Or.inl he
      · exact Or.inr ⟨true, he⟩
      · exact Or.inr ⟨false, he⟩
    rcases hcase with he | ⟨h, he⟩
    · subst he
      have hb2 : callbacks es ≤ 25 - (s.count + 1) % 65536 := by
        simpa [callbacks] using hb
      obtain ⟨h1, h2, h3⟩ := ih s hes ha hs hc hb2
      simp only [exec, reports, pendings, next_read_clear s hs, output_read_clear s hs,
        h1, h2, h3, callbacks, polls, hs]
      simp [List.replicate_succ]
    · subst he
      have hb2 : callbacks es + 1 ≤ 25 - (s.count + 1) % 65536 := by
        simpa [callbacks] using hb
      have hle : (s.count + 1) % 65536 ≤ 24 := by omega
      have hn : next s (Ev.timer h) = { s with count := (s.count + 1) % 65536 } := by
        simp [next, ha, keypad_cb_counting s _ hle]
      obtain ⟨h1, h2, h3⟩ := ih { s with count := (s.count + 1) % 65536 } hes ha hs
        (Nat.mod_lt _ (by norm_num)) (by simp only; omega)
      simp only [exec, reports, pendings, hn, output, h1, h2, h3, callbacks, polls, hs]
      have e1 : ((s.count + 1) % 65536 + callbacks es) % 65536
          = (s.count + (callbacks es + 1)) % 65536 := by omega
      simp [e1, List.replicate_succ]

/-- While OK or MENU is held low with click count 0 and nothing pending, polls
and callbacks only advance the 16-bit counter, for any length of the hold. -/
theorem hold_phase (l : List Ev) : ∀ s : Sys, lowPhase l → s.timer_active = true →
    s.keypad.state = 0 → s.keypad.clicks = 0 →
    (s.keypad.num = BUTTON_OK ∨ s.keypad.num = BUTTON_MENU) → s.count < 65536 →
    exec s l = { s with count := (s.count + callbacks l) % 65536 } ∧
      reports s l =
        List.replicate (polls l) { state := LV_INDEV_STATE_REL, key := s.last_key } ∧
      pendings s l = List.replicate l.length 0 := by
  induction l with
  | nil =>
    intro s _ _ _ _ _ hc
    have : s.count % 65536 = s.count := Nat.mod_eq_of_lt hc
    simp [exec, reports, pendings, callbacks, polls, this]
  | cons e es ih =>
    intro s hl ha hs hk hn hc
    have hes : lowPhase es := fun x hx => hl x (List.mem_cons_of_mem _ hx)
    rcases hl e (List.mem_cons_self _ _) with he | he
    · subst he
      obtain ⟨h1, h2, h3⟩ := ih s hes ha hs hk hn hc
      simp only [exec, reports, pendings, next_read_clear s hs, output_read_clear s hs,
        h1, h2, h3, callbacks, polls, hs]
      simp [List.replicate_succ]
    · subst he
      have hnx : next s (Ev.timer false) = { s with count := (s.count + 1) % 65536 } := by
        have := keypad_cb_held s hk hn
        simp [next, ha, levelOf, this]
      obtain ⟨h1, h2, h3⟩ := ih { s with count := (s.count + 1) % 65536 } hes ha hs hk hn
        (Nat.mod_lt _ (by norm_num))
      simp only [exec, reports, pendings, hnx, output, h1, h2, h3, callbacks, polls, hs]
      have e1 : ((s.count + 1) % 65536 + callbacks es) % 65536
          = (s.count + (callbacks es + 1)) % 65536 := by omega
      simp [e1, List.replicate_succ]

/-! ## Runs: the decisive fields step by step -/

theorem core_press {s : Sys} {num c st : Nat} {active : Bool} {cnt t k : Nat}
    (b : Button) (tp : Nat) (h : Core s num c st active cnt t k) :
    Core (next s (Ev.edge b false tp)) b.io_num c st true cnt t k := by
  obtain ⟨_, h2, h3, h4, h5, h6, h7⟩ := h
  cases b <;> cases active <;>
    simp [Core, next, gpio_task_handler, levelOf, LOW, Button.io_num, BUTTON_OK, BUTTON_DW,
      BUTTON_UP, BUTTON_MENU, h2, h3, h4, h5, h6, h7]

theorem core_release {s : Sys} {num c st : Nat} {active : Bool} {cnt t k : Nat}
    (b : Button) (now : Nat) (h : Core s num c st active cnt t k) :
    Core (next s (Ev.edge b true now)) b.io_num (clicksAfterRelease c (tickDiff now t)) st
      active cnt
      (if clicksAfterRelease c (tickDiff now t) > 0 then now % 2 ^ 32 else t) k := by
  obtain ⟨_, h2, h3, h4, h5, h6, h7⟩ := h
  cases b <;>
    simp [Core, next, gpio_task_handler, levelOf, HIGH, Button.io_num, BUTTON_OK, BUTTON_DW,
      BUTTON_UP, BUTTON_MENU, h2, h3, h4, h5, h6, h7, clicksAfterRelease, tickDiff]

theorem core_count {s : Sys} {num c st : Nat} {active : Bool} {cnt t k : Nat} (n : Nat)
    (h : Core s num c st active cnt t k) :
    Core { s with count := n } num c st active n t k := by
  obtain ⟨h1, h2, h3, h4, _, h6, h7⟩ := h
  exact ⟨h1, h2, h3, h4, rfl, h6, h7⟩

/-- The callback that finalizes: counter above 24 after the increment and the
line read high. -/
theorem core_finalize {s : Sys} {num c st : Nat} {cnt t k : Nat}
    (h : Core s num c st true cnt t k) (hc : (cnt + 1) % 65536 > 24) :
    Core (next s (Ev.timer true)) num 0 (keypad_cb s HIGH).keypad.state false 0 t k := by
  obtain ⟨h1, h2, h3, h4, h5, h6, h7⟩ := h
  subst h5
  simp [Core, next, h4, levelOf, keypad_cb, hc, HIGH, h1, h6, h7]

theorem core_read {s : Sys} {num c st : Nat} {active : Bool} {cnt t k : Nat}
    (h : Core s num c st active cnt t k) (hst : st ≠ 0) :
    Core (next s Ev.read) num c 0 active cnt t st ∧
      output s Ev.read = [{ state := LV_INDEV_STATE_PR, key := st }] := by
  obtain ⟨h1, h2, h3, h4, h5, h6, h7⟩ := h
  subst h3
  simp [Core, next, output, lv_keypad_read, h1, h2, h4, h5, h6, h7, hst]

/-- Symbol written by a finalizing callback, by active line and click count. -/
theorem finalize_symbol {s : Sys} {c st : Nat} {cnt t k : Nat} (b : Button)
    (h : Core s b.io_num c st true cnt t k) (hc : (cnt + 1) % 65536 > 24) (lvl : Nat) :
    (keypad_cb s lvl).keypad.state =
      (match b with
        | .ok => if c = 1 then LV_KEY_ENTER else if c = 2 then LV_KEY_ESC else st
        | .dw => LV_KEY_LEFT
        | .up => LV_KEY_RIGHT
        | .menu => if c = 1 then LV_KEY_NEXT else if c = 2 then LV_KEY_PREV else st) := by
  obtain ⟨h1, h2, h3, h4, h5, h6, h7⟩ := h
  subst h5
  cases b <;> by_cases hl : lvl = 0 <;>
    simp_all [keypad_cb, Button.io_num, BUTTON_OK, BUTTON_DW, BUTTON_UP, BUTTON_MENU]

/-! ## Runs: one click cycle -/

theorem zeros_glue (a b : Nat) (l : List Nat) :
    0 :: (List.replicate a 0 ++ 0 :: (List.replicate b 0 ++ l)) =
      List.replicate (a + b + 2) 0 ++ l := by
  have h : List.replicate (a + b + 2) 0 =
      0 :: (List.replicate a 0 ++ 0 :: List.replicate b (0 : Nat)) := by
    symm
    rw [List.eq_replicate_iff]
    constructor
    · simp; omega
    · intro x hx
      simp at hx
      rcases hx with hx | hx | hx | hx <;> simp_all
  rw [h]
  simp

/-- A clean click cycle from an idle state. When the release on OK or MENU
comes at least 300 ticks after the recorded last click, or the button is DOWN or
UP and is released before the counter passes 24, the polls report "released"
with the old key up to the finalizing callback, then once "pressed" with the
single-click symbol, then "released" with that symbol; the state is idle again
afterwards. -/
theorem single_click_cycle (s : Sys) (b : Button) (tp now : Nat) (mid post1 : List Ev)
    (n : Nat) (hidle : Idle s)
    (hmid : lowPhase mid) (hpost : highPhase post1)
    (hlate : (b = Button.ok ∨ b = Button.menu) → 300 ≤ tickDiff now s.tick)
    (hshort : (b = Button.dw ∨ b = Button.up) → callbacks mid ≤ 24)
    (hwin : callbacks post1 = 25 - (callbacks mid + 1) % 65536) :
    reports s (clickCycle b tp mid now post1 (n + 1)) =
        List.replicate (polls mid + polls post1)
          { state := LV_INDEV_STATE_REL, key := s.last_key } ++
        { state := LV_INDEV_STATE_PR, key := singleSym b } ::
          List.replicate n { state := LV_INDEV_STATE_REL, key := singleSym b } ∧
      pendings s (clickCycle b tp mid now post1 (n + 1)) =
        List.replicate (mid.length + post1.length + 2) 0 ++
          singleSym b :: List.replicate (n + 1) 0 ∧
      Idle (exec s (clickCycle b tp mid now post1 (n + 1))) ∧
      (exec s (clickCycle b tp mid now post1 (n + 1))).tick = now % 2 ^ 32 ∧
      (exec s (clickCycle b tp mid now post1 (n + 1))).last_key = singleSym b := by
  obtain ⟨hta, hcnt, hclk, hst⟩ := hidle
  have c0 : Core s s.keypad.num 0 0 false 0 s.tick s.last_key :=
    ⟨rfl, hclk, hst, hta, hcnt, rfl, rfl⟩
  -- the press
  have c1 := core_press b tp c0
  generalize hs1 : next s (Ev.edge b false tp) = s1 at c1
  -- the hold
  have hm : exec s1 mid = { s1 with count := (s1.count + callbacks mid) % 65536 } ∧
      reports s1 mid =
        List.replicate (polls mid) { state := LV_INDEV_STATE_REL, key := s1.last_key } ∧
      pendings s1 mid = List.replicate mid.length 0 := by
    obtain ⟨d1, d2, d3, d4, d5, d6, d7⟩ := c1
    have hnum : (b = Button.ok ∨ b = Button.menu) ∨ (b = Button.dw ∨ b = Button.up) := by
      cases b <;> simp
    rcases hnum with hb | hb
    · refine hold_phase mid s1 hmid d4 d3 d2 ?_ (by omega)
      rcases hb with hb | hb <;> subst hb <;> simp [d1, Button.io_num]
    · refine quiet_phase mid s1 (noEdge_of_lowPhase hmid) d4 d3 (by omega) ?_
      have := hshort hb
      rw [d5]
      norm_num
      omega
  obtain ⟨hm1, hm2, hm3⟩ := hm
  have c2 := core_count ((s1.count + callbacks mid) % 65536) c1
  rw [← hm1] at c2
  have hk1 : s1.last_key = s.last_key := c1.2.2.2.2.2.2
  have hcz : s1.count = 0 := c1.2.2.2.2.1
  rw [hcz, Nat.zero_add] at c2
  generalize hs2 : exec s1 mid = s2 at c2
  -- the release
  have c3 := core_release b now c2
  generalize hs3 : next s2 (Ev.edge b true now) = s3 at c3
  have hpos : clicksAfterRelease 0 (tickDiff now s.tick) > 0 := by
    by_cases hd : tickDiff now s.tick < 300 <;> simp [clicksAfterRelease, hd]
  rw [if_pos hpos] at c3
  -- the wait for the finalizing callback
  have hq := quiet_phase post1 s3 (noEdge_of_highPhase hpost) c3.2.2.2.1 c3.2.2.1
    (by rw [c3.2.2.2.2.1]; exact Nat.mod_lt _ (by norm_num))
    (by rw [c3.2.2.2.2.1, hwin]; omega)
  obtain ⟨hq1, hq2, hq3⟩ := hq
  have c4 := core_count ((s3.count + callbacks post1) % 65536) c3
  rw [← hq1] at c4
  rw [c3.2.2.2.2.1] at c4
  have hk3 : s3.last_key = s.last_key := c3.2.2.2.2.2.2
  generalize hs4 : exec s3 post1 = s4 at c4
  -- the finalizing callback
  have hgt : ((callbacks mid % 65536 + callbacks post1) % 65536 + 1) % 65536 > 24 := by
    rw [hwin]; omega
  have c5 := core_finalize c4 hgt
  have hsym : (keypad_cb s4 HIGH).keypad.state = singleSym b := by
    rw [finalize_symbol b c4 hgt HIGH]
    have hnum : (b = Button.ok ∨ b = Button.menu) ∨ (b = Button.dw ∨ b = Button.up) := by
      cases b <;> simp
    rcases hnum with hb | hb
    · have hl := hlate hb
      have : clicksAfterRelease 0 (tickDiff now s.tick) = 1 := by
        unfold clicksAfterRelease
        rw [if_neg (by omega)]
        simp
      rcases hb with hb | hb <;> subst hb <;> simp [this, singleSym]
    · rcases hb with hb | hb <;> subst hb <;> simp [singleSym]
  rw [hsym] at c5
  generalize hs5 : next s4 (Ev.timer true) = s5 at c5
  -- the polls
  have hne : singleSym b ≠ 0 := by cases b <;> decide
  obtain ⟨c6, ho⟩ := core_read c5 hne
  have ho2 : (lv_keypad_read s5).2 = { state := LV_INDEV_STATE_PR, key := singleSym b } := by
    simpa [output] using ho
  generalize hs6 : next s5 Ev.read = s6 at c6
  obtain ⟨hi1, hi2, hi3⟩ := idle_polls n s6 c6.2.2.1
  refine ⟨?_, ?_, ?_, ?_, ?_⟩
  · simp only [clickCycle, reports, reports_append, exec, exec_append, output, hs1, hm2, hs2,
      hs3, hq2, hs4, hs5, ho2, hs6, hi2, List.nil_append, hk1, hk3,
      c6.2.2.2.2.2.2, List.replicate_succ, List.singleton_append]
    rw [List.replicate_add, List.append_assoc]
  · simp only [clickCycle, pendings, pendings_append, exec, exec_append, hs1, hm3, hs2,
      hs3, hq3, hs4, hs5, hs6, hi3, List.replicate_succ, c1.2.2.1, c3.2.2.1, c5.2.2.1,
      c6.2.2.1]
    exact zeros_glue _ _ _
  · simp only [clickCycle, exec, exec_append, hs1, hs2, hs3, hs4, hs5, hs6, hi1,
      List.replicate_succ]
    exact ⟨c6.2.2.2.1, c6.2.2.2.2.1, c6.2.1, c6.2.2.1⟩
  · simp only [clickCycle, exec, exec_append, hs1, hs2, hs3, hs4, hs5, hs6, hi1,
      List.replicate_succ]
    exact c6.2.2.2.2.2.1
  · simp only [clickCycle, exec, exec_append, hs1, hs2, hs3, hs4, hs5, hs6, hi1,
      List.replicate_succ]
    exact c6.2.2.2.2.2.2

/-! ## Runs: two clicks inside one window -/

theorem zeros_glue4 (a b c d : Nat) (l : List Nat) :
    0 :: (List.replicate a 0 ++ 0 :: (List.replicate b 0 ++
      0 :: (List.replicate c 0 ++ 0 :: (List.replicate d 0 ++ l)))) =
      List.replicate (a + b + c + d + 4) 0 ++ l := by
  have e : List.replicate (a + b + 2) 0 ++ List.replicate (c + d + 2) 0 =
      List.replicate (a + b + c + d + 4) (0 : Nat) := by
    rw [← List.replicate_add]
    congr 1
    omega
  rw [zeros_glue c d l, zeros_glue a b, ← e, List.append_assoc]

/-- The quiet stretch in terms of the decisive fields. -/
theorem quiet_core {s : Sys} {num c : Nat} {cnt t k : Nat} (l : List Ev)
    (h : Core s num c 0 true cnt t k) (hl : noEdge l) (hc : cnt < 65536)
    (hb : callbacks l ≤ 25 - (cnt + 1) % 65536) :
    Core (exec s l) num c 0 true ((cnt + callbacks l) % 65536) t k ∧
      reports s l = List.replicate (polls l) { state := LV_INDEV_STATE_REL, key := k } ∧
      pendings s l = List.replicate l.length 0 := by
  have h5 : s.count = cnt := h.2.2.2.2.1
  have h7 : s.last_key = k := h.2.2.2.2.2.2
  obtain ⟨q1, q2, q3⟩ := quiet_phase l s hl h.2.2.2.1 h.2.2.1 (by omega) (by rw [h5]; exact hb)
  refine ⟨?_, ?_, q3⟩
  · rw [q1, h5]
    exact core_count _ h
  · rw [q2, h7]

/-- Two press-release pairs inside one window, from an idle state, the first
release at least 300 ticks after the recorded last click and the second less
than 300 ticks after the first: the finalizing callback writes the two-click
symbol of the second button, which is the only symbol written and reported. -/
theorem two_click_window (s : Sys) (a b : Button) (t1 r1 t2 r2 : Nat)
    (m1 m2 m3 post1 : List Ev) (n : Nat) (hidle : Idle s)
    (hm1 : lowPhase m1) (hm2 : highPhase m2) (hm3 : lowPhase m3) (hpost : highPhase post1)
    (hwin : callbacks m1 + callbacks m2 + callbacks m3 + callbacks post1 = 24)
    (hfirst : 300 ≤ tickDiff r1 s.tick)
    (hsecond : tickDiff r2 (r1 % 2 ^ 32) < 300) :
    reports s (twoClicks a b t1 m1 r1 m2 t2 m3 r2 post1 (n + 1)) =
        List.replicate (polls m1 + polls m2 + polls m3 + polls post1)
          { state := LV_INDEV_STATE_REL, key := s.last_key } ++
        { state := LV_INDEV_STATE_PR, key := doubleSym b } ::
          List.replicate n { state := LV_INDEV_STATE_REL, key := doubleSym b } ∧
      pendings s (twoClicks a b t1 m1 r1 m2 t2 m3 r2 post1 (n + 1)) =
        List.replicate (m1.length + m2.length + m3.length + post1.length + 4) 0 ++
          doubleSym b :: List.replicate (n + 1) 0 := by
  obtain ⟨hta, hcnt, hclk, hst⟩ := hidle
  have c0 : Core s s.keypad.num 0 0 false 0 s.tick s.last_key :=
    ⟨rfl, hclk, hst, hta, hcnt, rfl, rfl⟩
  have c1 := core_press a t1 c0
  generalize hs1 : next s (Ev.edge a false t1) = s1 at c1
  obtain ⟨c2, r2a, p2⟩ := quiet_core m1 c1 (noEdge_of_lowPhase hm1) (by norm_num) (by omega)
  generalize hs2 : exec s1 m1 = s2 at c2
  have c3 := core_release a r1 c2
  have hk1 : clicksAfterRelease 0 (tickDiff r1 s.tick) = 1 := by
    unfold clicksAfterRelease
    rw [if_neg (by omega)]
    simp
  rw [hk1, if_pos (by norm_num)] at c3
  generalize hs3 : next s2 (Ev.edge a true r1) = s3 at c3
  obtain ⟨c4, r4, p4⟩ := quiet_core m2 c3 (noEdge_of_highPhase hm2)
    (Nat.mod_lt _ (by norm_num)) (by omega)
  generalize hs4 : exec s3 m2 = s4 at c4
  have c5 := core_press b t2 c4
  generalize hs5 : next s4 (Ev.edge b false t2) = s5 at c5
  obtain ⟨c6, r6, p6⟩ := quiet_core m3 c5 (noEdge_of_lowPhase hm3)
    (Nat.mod_lt _ (by norm_num)) (by omega)
  generalize hs6 : exec s5 m3 = s6 at c6
  have c7 := core_release b r2 c6
  have hk2 : clicksAfterRelease 1 (tickDiff r2 (r1 % 2 ^ 32)) = 2 := by
    unfold clicksAfterRelease
    rw [if_pos hsecond]
    simp
  rw [hk2, if_pos (by norm_num)] at c7
  generalize hs7 : next s6 (Ev.edge b true r2) = s7 at c7
  obtain ⟨c8, r8, p8⟩ := quiet_core post1 c7 (noEdge_of_highPhase hpost)
    (Nat.mod_lt _ (by norm_num)) (by omega)
  generalize hs8 : exec s7 post1 = s8 at c8
  have hgt : ((((0 + callbacks m1) % 65536 + callbacks m2) % 65536 + callbacks m3) % 65536
      + callbacks post1) % 65536 + 1 > 24 ∧
      ((((((0 + callbacks m1) % 65536 + callbacks m2) % 65536 + callbacks m3) % 65536
      + callbacks post1) % 65536 + 1) % 65536 > 24) := by omega
  have c9 := core_finalize c8 hgt.2
  have hsym : (keypad_cb s8 HIGH).keypad.state = doubleSym b := by
    rw [finalize_symbol b c8 hgt.2 HIGH]
    cases b <;> simp [doubleSym]
  rw [hsym] at c9
  generalize hs9 : next s8 (Ev.timer true) = s9 at c9
  have hne : doubleSym b ≠ 0 := by cases b <;> decide
  obtain ⟨c10, ho⟩ := core_read c9 hne
  have ho2 : (lv_keypad_read s9).2 = { state := LV_INDEV_STATE_PR, key := doubleSym b } := by
    simpa [output] using ho
  generalize hs10 : next s9 Ev.read = s10 at c10
  obtain ⟨hi1, hi2, hi3⟩ := idle_polls n s10 c10.2.2.1
  refine ⟨?_, ?_⟩
  · simp only [twoClicks, reports, reports_append, exec, exec_append, output, hs1, r2a, hs2,
      hs3, r4, hs4, hs5, r6, hs6, hs7, r8, hs8, hs9, ho2, hs10, hi2, List.nil_append,
      c10.2.2.2.2.2.2, List.replicate_succ, List.singleton_append]
    rw [List.replicate_add, List.replicate_add, List.replicate_add]
    simp only [List.append_assoc]
  · simp only [twoClicks, pendings, pendings_append, exec, exec_append, hs1, p2, hs2,
      hs3, p4, hs4, hs5, p6, hs6, hs7, p8, hs8, hs9, hs10, hi3, List.replicate_succ,
      c1.2.2.1, c3.2.2.1, c5.2.2.1, c7.2.2.1, c9.2.2.1, c10.2.2.1]
    exact zeros_glue4 _ _ _ _ _

/-! ## Key Symbol Sink -/

/-- C1: a read reports "pressed" with the pending symbol and remembers it when a
symbol is pending, and otherwise reports "released" with the remembered symbol,
which stays; the pending symbol is none afterwards, so an immediately following
read reports "released" with the key of the first read. -/
theorem lv_keypad_read_contract (s : Sys) :
    (lv_keypad_read s).2 =
        (if s.keypad.state ≠ 0 then
          { state := LV_INDEV_STATE_PR, key := s.keypad.state }
         else { state := LV_INDEV_STATE_REL, key := s.last_key }) ∧
      (lv_keypad_read s).1.last_key =
        (if s.keypad.state ≠ 0 then s.keypad.state else s.last_key) ∧
      (lv_keypad_read s).1.keypad.state = 0 ∧
      (lv_keypad_read (lv_keypad_read s).1).2 =
        { state := LV_INDEV_STATE_REL, key := (lv_keypad_read s).2.key } ∧
      LV_INDEV_STATE_PR ≠ LV_INDEV_STATE_REL := by
  refine ⟨?_, ?_, ?_, ?_, by decide⟩
  · by_cases h : s.keypad.state = 0 <;> simp [lv_keypad_read, h]
  · simp [lv_keypad_read]
  · simp [lv_keypad_read]
  · simp [lv_keypad_read]

/-! ## Click-Window Timer -/

/-- C2: in a callback whose incremented 16-bit counter exceeds 24 the pending
symbol afterwards is ENTER for OK with one click, ESCAPE for OK with two, NEXT
for MENU with one, PREVIOUS for MENU with two, LEFT for DOWN and RIGHT for UP
whatever the click count. -/
theorem keypad_cb_symbol_table (s : Sys) (pin_level : Nat)
    (hcount : (s.count + 1) % 65536 > 24) :
    (s.keypad.num = BUTTON_OK → s.keypad.clicks = 1 →
        (keypad_cb s pin_level).keypad.state = LV_KEY_ENTER) ∧
      (s.keypad.num = BUTTON_OK → s.keypad.clicks = 2 →
        (keypad_cb s pin_level).keypad.state = LV_KEY_ESC) ∧
      (s.keypad.num = BUTTON_MENU → s.keypad.clicks = 1 →
        (keypad_cb s pin_level).keypad.state = LV_KEY_NEXT) ∧
      (s.keypad.num = BUTTON_MENU → s.keypad.clicks = 2 →
        (keypad_cb s pin_level).keypad.state = LV_KEY_PREV) ∧
      (s.keypad.num = BUTTON_DW →
        (keypad_cb s pin_level).keypad.state = LV_KEY_LEFT) ∧
      (s.keypad.num = BUTTON_UP →
        (keypad_cb s pin_level).keypad.state = LV_KEY_RIGHT) := by
  refine ⟨?_, ?_, ?_, ?_, ?_, ?_⟩ <;> intros <;>
    by_cases hp : pin_level = 0 <;>
    simp_all [keypad_cb, BUTTON_OK, BUTTON_DW, BUTTON_UP, BUTTON_MENU]

/-- Witness for C2: the 25th callback on MENU with one click writes NEXT. -/
theorem keypad_cb_symbol_table_witness :
    (keypad_cb { init with keypad := { init.keypad with num := BUTTON_MENU, clicks := 1 },
                           timer_active := true, count := 24 } HIGH).keypad.state
      = LV_KEY_NEXT :=
  (keypad_cb_symbol_table
    { init with keypad := { init.keypad with num := BUTTON_MENU, clicks := 1 },
                timer_active := true, count := 24 } HIGH (by decide)).2.2.1 rfl rfl

/-! ## End to end: one click -/

/-- C3, as stated, fails: DOWN pressed at tick 1000, held for 26 timer periods
(520 ms) and released is a single clean press-then-release, and the polls report
"pressed" three times (the callbacks 25, 26 and 27 each write LEFT). -/
theorem single_click_held_down_repeats :
    (reports init (clickCycle Button.dw 1000 (periods 26 false) 1521
        (List.replicate 4 Ev.read) 2)).filter
        (fun d => decide (d.state = LV_INDEV_STATE_PR)) =
        [{ state := LV_INDEV_STATE_PR, key := LV_KEY_LEFT },
         { state := LV_INDEV_STATE_PR, key := LV_KEY_LEFT },
         { state := LV_INDEV_STATE_PR, key := LV_KEY_LEFT }] ∧
      (reports init (clickCycle Button.dw 1000 (periods 26 false) 1521
        (List.replicate 4 Ev.read) 2)).countP
        (fun d => decide (d.state = LV_INDEV_STATE_PR)) ≠ 1 := by
  decide

/-- C3, amended: from start-up, after any number of polls, a clean press and
release of one button, where OK or MENU is released at least 300 ticks after
start-up (any hold duration) and DOWN or UP is released before the callback
counter passes 24, makes the polls report "released" with key 0 up to the
finalizing callback, then exactly once "pressed" with the single-click symbol
of the button, and from the next poll on "released" with that symbol. Here
`mid` is the stretch while the button is held, and `post1` the stretch after
the release with exactly the callbacks that come before the finalizing one,
the first whose incremented 16-bit counter exceeds 24. -/
theorem single_click_reports (b : Button) (n0 tp now : Nat) (mid post1 : List Ev) (n : Nat)
    (hmid : lowPhase mid) (hpost : highPhase post1)
    (hlate : (b = Button.ok ∨ b = Button.menu) → 300 ≤ now % 2 ^ 32)
    (hshort : (b = Button.dw ∨ b = Button.up) → callbacks mid ≤ 24)
    (hwin : callbacks post1 = 25 - (callbacks mid + 1) % 65536) :
    reports init (List.replicate n0 Ev.read ++ clickCycle b tp mid now post1 (n + 2)) =
        List.replicate (n0 + (polls mid + polls post1))
          { state := LV_INDEV_STATE_REL, key := 0 } ++
        { state := LV_INDEV_STATE_PR, key := singleSym b } ::
          { state := LV_INDEV_STATE_REL, key := singleSym b } ::
            List.replicate n { state := LV_INDEV_STATE_REL, key := singleSym b } ∧
      (reports init (List.replicate n0 Ev.read ++ clickCycle b tp mid now post1 (n + 2))).countP
        (fun d => decide (d.state = LV_INDEV_STATE_PR)) = 1 := by
  have hidle : Idle init := ⟨rfl, rfl, rfl, rfl⟩
  obtain ⟨i1, i2, _⟩ := idle_polls n0 init rfl
  have hl : (b = Button.ok ∨ b = Button.menu) → 300 ≤ tickDiff now init.tick := by
    intro hb
    have := hlate hb
    simp only [tickDiff, init]
    omega
  obtain ⟨h1, _⟩ := single_click_cycle init b tp now mid post1 (n + 1) hidle hmid hpost hl
    hshort hwin
  have e : reports init (List.replicate n0 Ev.read ++ clickCycle b tp mid now post1 (n + 2)) =
      List.replicate (n0 + (polls mid + polls post1))
          { state := LV_INDEV_STATE_REL, key := 0 } ++
        { state := LV_INDEV_STATE_PR, key := singleSym b } ::
          { state := LV_INDEV_STATE_REL, key := singleSym b } ::
            List.replicate n { state := LV_INDEV_STATE_REL, key := singleSym b } := by
    rw [reports_append, i1, i2, h1]
    simp only [List.replicate_add, List.append_assoc, List.replicate_succ]
    rfl
  refine ⟨e, ?_⟩
  rw [e]
  simp [List.countP_append, List.countP_replicate, List.countP_cons, LV_INDEV_STATE_PR,
    LV_INDEV_STATE_REL]

/-- Witness for C3: MENU pressed at tick 1000, held 100 ms, released; the 25th
callback finalizes and the next two polls report pressed NEXT, released NEXT. -/
theorem single_click_reports_witness :
    reports init (List.replicate 2 Ev.read ++ clickCycle Button.menu 1000 (periods 5 false)
        1101 (periods 19 true ++ List.replicate 4 Ev.read) 2) =
      List.replicate 102 { state := LV_INDEV_STATE_REL, key := 0 } ++
        [{ state := LV_INDEV_STATE_PR, key := LV_KEY_NEXT },
         { state := LV_INDEV_STATE_REL, key := LV_KEY_NEXT }] :=
  (single_click_reports Button.menu 2 1000 1101 (periods 5 false)
    (periods 19 true ++ List.replicate 4 Ev.read) 0
    (by unfold lowPhase; decide) (by unfold highPhase; decide)
    (fun _ => by decide) (fun h => by simp at h) (by decide)).1

/-- The start-up case left out of the amended C3: the worker's `tick` starts at
0, so a single MENU click released within the first 300 ticks is counted twice
and reported as PREVIOUS. -/
theorem single_click_at_startup_counts_twice :
    (reports init (clickCycle Button.menu 0 (periods 5 false) 101
        (periods 19 true ++ List.replicate 4 Ev.read) 2)).filter
        (fun d => decide (d.state = LV_INDEV_STATE_PR)) =
      [{ state := LV_INDEV_STATE_PR, key := LV_KEY_PREV }] := by
  decide

/-! ## End to end: double click -/

set_option maxRecDepth 8000 in
/-- C4, as stated, fails: on OK, presses at ticks 1000 and 1261 are within 300
ticks of each other, but the releases at 1061 and 1401 are not, so the click
count stays 1 and the 25th callback writes ENTER, which the sink reports;
ESCAPE is never written. -/
theorem double_click_measured_at_release :
    pendings init (twoClicks Button.ok Button.ok 1000 (periods 3 false) 1061
        (periods 10 true) 1261 (periods 7 false) 1401
        (periods 4 true ++ List.replicate 4 Ev.read) 2) =
        List.replicate 128 0 ++ [LV_KEY_ENTER, 0, 0] ∧
      (reports init (twoClicks Button.ok Button.ok 1000 (periods 3 false) 1061
        (periods 10 true) 1261 (periods 7 false) 1401
        (periods 4 true ++ List.replicate 4 Ev.read) 2)).filter
        (fun d => decide (d.state = LV_INDEV_STATE_PR)) =
        [{ state := LV_INDEV_STATE_PR, key := LV_KEY_ENTER }] ∧
      LV_KEY_ESC ∉ pendings init (twoClicks Button.ok Button.ok 1000 (periods 3 false) 1061
        (periods 10 true) 1261 (periods 7 false) 1401
        (periods 4 true ++ List.replicate 4 Ev.read) 2) ∧
      tickDiff 1261 1000 < 300 := by
  decide

/-- C4, amended: on OK (respectively MENU), from start-up, two press-release
pairs that are both handled before the 25th callback since the first press, with
the first release at least 300 ticks after start-up and the second release less
than 300 ticks (unsigned tick arithmetic) after the first, make the finalizing
callback write ESCAPE (respectively PREVIOUS); it is the only symbol written,
the sink reports it as "pressed" exactly once, and ENTER (respectively NEXT) is
neither written nor reported. -/
theorem double_click_reports (b : Button) (hb : b = Button.ok ∨ b = Button.menu)
    (n0 t1 r1 t2 r2 : Nat) (m1 m2 m3 post1 : List Ev) (n : Nat)
    (hm1 : lowPhase m1) (hm2 : highPhase m2) (hm3 : lowPhase m3) (hpost : highPhase post1)
    (hwin : callbacks m1 + callbacks m2 + callbacks m3 + callbacks post1 = 24)
    (hfirst : 300 ≤ r1 % 2 ^ 32)
    (hsecond : tickDiff r2 (r1 % 2 ^ 32) < 300) :
    pendings init (List.replicate n0 Ev.read ++
        twoClicks b b t1 m1 r1 m2 t2 m3 r2 post1 (n + 1)) =
        List.replicate (n0 + (m1.length + m2.length + m3.length + post1.length + 4)) 0 ++
          doubleSym b :: List.replicate (n + 1) 0 ∧
      reports init (List.replicate n0 Ev.read ++
        twoClicks b b t1 m1 r1 m2 t2 m3 r2 post1 (n + 1)) =
        List.replicate (n0 + (polls m1 + polls m2 + polls m3 + polls post1))
          { state := LV_INDEV_STATE_REL, key := 0 } ++
        { state := LV_INDEV_STATE_PR, key := doubleSym b } ::
          List.replicate n { state := LV_INDEV_STATE_REL, key := doubleSym b } ∧
      singleSym b ∉ pendings init (List.replicate n0 Ev.read ++
        twoClicks b b t1 m1 r1 m2 t2 m3 r2 post1 (n + 1)) ∧
      (∀ d ∈ reports init (List.replicate n0 Ev.read ++
        twoClicks b b t1 m1 r1 m2 t2 m3 r2 post1 (n + 1)), d.key ≠ singleSym b) ∧
      (b = Button.ok → doubleSym b = LV_KEY_ESC ∧ singleSym b = LV_KEY_ENTER) ∧
      (b = Button.menu → doubleSym b = LV_KEY_PREV ∧ singleSym b = LV_KEY_NEXT) := by
  have hidle : Idle init := ⟨rfl, rfl, rfl, rfl⟩
  obtain ⟨i1, i2, i3⟩ := idle_polls n0 init rfl
  have hf : 300 ≤ tickDiff r1 init.tick := by
    simp only [tickDiff, init]
    omega
  obtain ⟨h1, h2⟩ := two_click_window init b b t1 r1 t2 r2 m1 m2 m3 post1 n hidle hm1 hm2 hm3
    hpost hwin hf hsecond
  have ep : pendings init (List.replicate n0 Ev.read ++
        twoClicks b b t1 m1 r1 m2 t2 m3 r2 post1 (n + 1)) =
        List.replicate (n0 + (m1.length + m2.length + m3.length + post1.length + 4)) 0 ++
          doubleSym b :: List.replicate (n + 1) 0 := by
    rw [pendings_append, i1, i3, h2, ← List.append_assoc, ← List.replicate_add]
  have er : reports init (List.replicate n0 Ev.read ++
        twoClicks b b t1 m1 r1 m2 t2 m3 r2 post1 (n + 1)) =
        List.replicate (n0 + (polls m1 + polls m2 + polls m3 + polls post1))
          { state := LV_INDEV_STATE_REL, key := 0 } ++
        { state := LV_INDEV_STATE_PR, key := doubleSym b } ::
          List.replicate n { state := LV_INDEV_STATE_REL, key := doubleSym b } := by
    rw [reports_append, i1, i2, h1, ← List.append_assoc, ← List.replicate_add]
    rfl
  have hne : singleSym b ≠ doubleSym b ∧ singleSym b ≠ 0 := by
    rcases hb with hb | hb <;> subst hb <;> decide
  refine ⟨ep, er, ?_, ?_, ?_, ?_⟩
  · rw [ep]
    intro hmem
    simp only [List.mem_append, List.mem_cons, List.mem_replicate] at hmem
    rcases hmem with ⟨_, h⟩ | h | ⟨_, h⟩
    · exact hne.2 h
    · exact hne.1 h
    · exact hne.2 h
  · rw [er]
    intro d hd
    simp only [List.mem_append, List.mem_cons, List.mem_replicate] at hd
    rcases hd with ⟨_, h⟩ | h | ⟨_, h⟩ <;> subst h <;> simp only
    · exact fun e => hne.2 e.symm
    · exact fun e => hne.1 e.symm
    · exact fun e => hne.1 e.symm
  · intro h
    subst h
    exact ⟨rfl, rfl⟩
  · intro h
    subst h
    exact ⟨rfl, rfl⟩

/-- Witness for C4: MENU pressed at 1000, released at 1041, pressed at 1101,
released at 1141; the 25th callback writes PREVIOUS and the sink reports it. -/
theorem double_click_reports_witness :
    reports init (List.replicate 1 Ev.read ++
        twoClicks Button.menu Button.menu 1000 (periods 2 false) 1041 (periods 3 true) 1101
          (periods 2 false) 1141 (periods 17 true ++ List.replicate 4 Ev.read) 2) =
      List.replicate 101 { state := LV_INDEV_STATE_REL, key := 0 } ++
        [{ state := LV_INDEV_STATE_PR, key := LV_KEY_PREV },
         { state := LV_INDEV_STATE_REL, key := LV_KEY_PREV }] :=
  (double_click_reports Button.menu (Or.inr rfl) 1 1000 1041 1101 1141 (periods 2 false)
    (periods 3 true) (periods 2 false) (periods 17 true ++ List.replicate 4 Ev.read) 1
    (by unfold lowPhase; decide) (by unfold highPhase; decide)
    (by unfold lowPhase; decide) (by unfold highPhase; decide)
    (by decide) (by decide) (by decide)).2.1

/-! ## End to end: separated clicks -/

set_option maxRecDepth 8000 in
/-- C5, as stated, fails: on OK, presses at ticks 1000 and 1401 are more than
300 ticks apart, but the second falls into the window opened by the first; the
timer finalizes once, at its 25th callback, and the sink reports "pressed" with
ENTER once, not twice, the state being idle afterwards. -/
theorem separated_clicks_inside_window_merge :
    (reports init (twoClicks Button.ok Button.ok 1000 (periods 3 false) 1061
        (periods 17 true) 1401 (periods 3 false) 1461
        (periods 1 true ++ List.replicate 4 Ev.read) 40)).filter
        (fun d => decide (d.state = LV_INDEV_STATE_PR)) =
        [{ state := LV_INDEV_STATE_PR, key := LV_KEY_ENTER }] ∧
      (exec init (twoClicks Button.ok Button.ok 1000 (periods 3 false) 1061
        (periods 17 true) 1401 (periods 3 false) 1461
        (periods 1 true ++ List.replicate 4 Ev.read) 40)).timer_active = false ∧
      (exec init (twoClicks Button.ok Button.ok 1000 (periods 3 false) 1061
        (periods 17 true) 1401 (periods 3 false) 1461
        (periods 1 true ++ List.replicate 4 Ev.read) 40)).keypad.clicks = 0 ∧
      (reports init (twoClicks Button.ok Button.ok 1000 (periods 3 false) 1061
        (periods 17 true) 1401 (periods 3 false) 1461
        (periods 1 true ++ List.replicate 4 Ev.read) 40)).count
        { state := LV_INDEV_STATE_PR, key := LV_KEY_ENTER } ≠ 2 ∧
      300 < tickDiff 1401 1000 := by
  decide

/-- C5, amended: on OK, from start-up, two clean press-release cycles of which
the second starts after the first has been finalized and polled, with the first
release at least 300 ticks after start-up and the second release at least 300
ticks (unsigned tick arithmetic) after the first, each yield ENTER: the sink
reports "pressed" with ENTER exactly twice, once per cycle, every other report
is "released", and ESCAPE is never reported. -/
theorem separated_clicks_reports (n0 tp1 r1 tp2 r2 : Nat) (mid1 post1 mid2 post2 : List Ev)
    (k n : Nat)
    (hmid1 : lowPhase mid1) (hpost1 : highPhase post1)
    (hmid2 : lowPhase mid2) (hpost2 : highPhase post2)
    (hwin1 : callbacks post1 = 25 - (callbacks mid1 + 1) % 65536)
    (hwin2 : callbacks post2 = 25 - (callbacks mid2 + 1) % 65536)
    (hfirst : 300 ≤ r1 % 2 ^ 32)
    (hsecond : 300 ≤ tickDiff r2 (r1 % 2 ^ 32)) :
    reports init (List.replicate n0 Ev.read ++ (clickCycle Button.ok tp1 mid1 r1 post1 (k + 1) ++
        clickCycle Button.ok tp2 mid2 r2 post2 (n + 1))) =
      List.replicate (n0 + (polls mid1 + polls post1))
          { state := LV_INDEV_STATE_REL, key := 0 } ++
        { state := LV_INDEV_STATE_PR, key := LV_KEY_ENTER } ::
          (List.replicate (k + (polls mid2 + polls post2))
              { state := LV_INDEV_STATE_REL, key := LV_KEY_ENTER } ++
            { state := LV_INDEV_STATE_PR, key := LV_KEY_ENTER } ::
              List.replicate n { state := LV_INDEV_STATE_REL, key := LV_KEY_ENTER }) := by
  have hidle : Idle init := ⟨rfl, rfl, rfl, rfl⟩
  obtain ⟨i1, i2, _⟩ := idle_polls n0 init rfl
  have hf : (Button.ok = Button.ok ∨ Button.ok = Button.menu) → 300 ≤ tickDiff r1 init.tick := by
    intro _
    simp only [tickDiff, init]
    omega
  obtain ⟨h1, _, h3, h4, h5⟩ := single_click_cycle init Button.ok tp1 r1 mid1 post1 k hidle
    hmid1 hpost1 hf (fun h => by simp at h) hwin1
  obtain ⟨g1, _⟩ := single_click_cycle _ Button.ok tp2 r2 mid2 post2 n h3
    hmid2 hpost2 (fun _ => by rw [h4]; exact hsecond) (fun h => by simp at h) hwin2
  rw [reports_append, i1, i2, reports_append, h1, g1, h5]
  simp only [List.replicate_add, List.append_assoc, List.replicate_succ, List.cons_append]
  rfl

/-- Witness for C5: OK clicked at ticks 1000 to 1101 and again at 2000 to 2101;
each click is finalized by its own 25th callback and reported as ENTER. -/
theorem separated_clicks_reports_witness :
    reports init (List.replicate 1 Ev.read ++
        (clickCycle Button.ok 1000 (periods 5 false) 1101
            (periods 19 true ++ List.replicate 4 Ev.read) 100 ++
          clickCycle Button.ok 2000 (periods 5 false) 2101
            (periods 19 true ++ List.replicate 4 Ev.read) 2)) =
      List.replicate 101 { state := LV_INDEV_STATE_REL, key := 0 } ++
        { state := LV_INDEV_STATE_PR, key := LV_KEY_ENTER } ::
          (List.replicate 199 { state := LV_INDEV_STATE_REL, key := LV_KEY_ENTER } ++
            [{ state := LV_INDEV_STATE_PR, key := LV_KEY_ENTER },
             { state := LV_INDEV_STATE_REL, key := LV_KEY_ENTER }]) :=
  separated_clicks_reports 1 1000 1101 2000 2101 (periods 5 false)
    (periods 19 true ++ List.replicate 4 Ev.read) (periods 5 false)
    (periods 19 true ++ List.replicate 4 Ev.read) 99 1
    (by unfold lowPhase; decide) (by unfold highPhase; decide)
    (by unfold lowPhase; decide) (by unfold highPhase; decide)
    (by decide) (by decide) (by decide) (by decide)

/-! ## Click counting across buttons -/

set_option maxRecDepth 8000 in
/-- C9, as stated, fails: MENU clicked at ticks 1000 to 1041 and then OK clicked
at ticks 1101 to 1141; the single click counter reaches 2, so the callback that
finalizes with OK active writes ESCAPE, which the sink reports; ENTER is never
written. -/
theorem click_count_shared_between_buttons :
    pendings init (twoClicks Button.menu Button.ok 1000 (periods 2 false) 1041
        (periods 3 true) 1101 (periods 2 false) 1141
        (periods 17 true ++ List.replicate 4 Ev.read) 2) =
        List.replicate 128 0 ++ [LV_KEY_ESC, 0, 0] ∧
      (reports init (twoClicks Button.menu Button.ok 1000 (periods 2 false) 1041
        (periods 3 true) 1101 (periods 2 false) 1141
        (periods 17 true ++ List.replicate 4 Ev.read) 2)).filter
        (fun d => decide (d.state = LV_INDEV_STATE_PR)) =
        [{ state := LV_INDEV_STATE_PR, key := LV_KEY_ESC }] ∧
      LV_KEY_ENTER ∉ pendings init (twoClicks Button.menu Button.ok 1000 (periods 2 false)
        1041 (periods 3 true) 1101 (periods 2 false) 1141
        (periods 17 true ++ List.replicate 4 Ev.read) 2) := by
  decide

/-- C9, amended: the click counter is shared by the four buttons. For two
distinct buttons A and B, from start-up, a clean press-release of A followed by
a clean press-release of B, both handled before the 25th callback since the
press of A, with A released at least 300 ticks after start-up and B released
less than 300 ticks (unsigned tick arithmetic) after A, is finalized with B
active and click count 2: the symbol written and reported is ESCAPE for B = OK,
PREVIOUS for B = MENU, LEFT for B = DOWN and RIGHT for B = UP. -/
theorem cross_button_click_reports (a b : Button) (_hab : a ≠ b)
    (n0 t1 r1 t2 r2 : Nat) (m1 m2 m3 post1 : List Ev) (n : Nat)
    (hm1 : lowPhase m1) (hm2 : highPhase m2) (hm3 : lowPhase m3) (hpost : highPhase post1)
    (hwin : callbacks m1 + callbacks m2 + callbacks m3 + callbacks post1 = 24)
    (hfirst : 300 ≤ r1 % 2 ^ 32)
    (hsecond : tickDiff r2 (r1 % 2 ^ 32) < 300) :
    pendings init (List.replicate n0 Ev.read ++
        twoClicks a b t1 m1 r1 m2 t2 m3 r2 post1 (n + 1)) =
        List.replicate (n0 + (m1.length + m2.length + m3.length + post1.length + 4)) 0 ++
          doubleSym b :: List.replicate (n + 1) 0 ∧
      reports init (List.replicate n0 Ev.read ++
        twoClicks a b t1 m1 r1 m2 t2 m3 r2 post1 (n + 1)) =
        List.replicate (n0 + (polls m1 + polls m2 + polls m3 + polls post1))
          { state := LV_INDEV_STATE_REL, key := 0 } ++
        { state := LV_INDEV_STATE_PR, key := doubleSym b } ::
          List.replicate n { state := LV_INDEV_STATE_REL, key := doubleSym b } ∧
      doubleSym Button.ok = LV_KEY_ESC ∧ doubleSym Button.menu = LV_KEY_PREV ∧
      doubleSym Button.dw = LV_KEY_LEFT ∧ doubleSym Button.up = LV_KEY_RIGHT := by
  have hidle : Idle init := ⟨rfl, rfl, rfl, rfl⟩
  obtain ⟨i1, i2, i3⟩ := idle_polls n0 init rfl
  have hf : 300 ≤ tickDiff r1 init.tick := by
    simp only [tickDiff, init]
    omega
  obtain ⟨h1, h2⟩ := two_click_window init a b t1 r1 t2 r2 m1 m2 m3 post1 n hidle hm1 hm2 hm3
    hpost hwin hf hsecond
  refine ⟨?_, ?_, rfl, rfl, rfl, rfl⟩
  · rw [pendings_append, i1, i3, h2, ← List.append_assoc, ← List.replicate_add]
  · rw [reports_append, i1, i2, h1, ← List.append_assoc, ← List.replicate_add]
    rfl

/-- Witness for C9: DOWN clicked at ticks 1000 to 1041, then MENU clicked at
ticks 1101 to 1141; the sink reports PREVIOUS. -/
theorem cross_button_click_reports_witness :
    reports init (List.replicate 1 Ev.read ++
        twoClicks Button.dw Button.menu 1000 (periods 2 false) 1041 (periods 3 true) 1101
          (periods 2 false) 1141 (periods 17 true ++ List.replicate 4 Ev.read) 2) =
      List.replicate 101 { state := LV_INDEV_STATE_REL, key := 0 } ++
        [{ state := LV_INDEV_STATE_PR, key := LV_KEY_PREV },
         { state := LV_INDEV_STATE_REL, key := LV_KEY_PREV }] :=
  (cross_button_click_reports Button.dw Button.menu (by decide) 1 1000 1041 1101 1141
    (periods 2 false) (periods 3 true) (periods 2 false)
    (periods 17 true ++ List.replicate 4 Ev.read) 1
    (by unfold lowPhase; decide) (by unfold highPhase; decide)
    (by unfold lowPhase; decide) (by unfold highPhase; decide)
    (by decide) (by decide) (by decide)).2.1

/-! ## Reset of click count and timer -/

theorem release_fields (s : Sys) (b : Button) (now : Nat) :
    (next s (Ev.edge b true now)).keypad.clicks =
        clicksAfterRelease s.keypad.clicks (tickDiff now s.tick) ∧
      (next s (Ev.edge b true now)).tick =
        (if clicksAfterRelease s.keypad.clicks (tickDiff now s.tick) > 0 then now % 2 ^ 32
          else s.tick) ∧
      (next s (Ev.edge b true now)).timer_active = s.timer_active ∧
      (next s (Ev.edge b true now)).keypad.num = b.io_num := by
  have h := core_release b now
    (show Core s s.keypad.num s.keypad.clicks s.keypad.state s.timer_active s.count s.tick
      s.last_key from ⟨rfl, rfl, rfl, rfl, rfl, rfl, rfl⟩)
  exact ⟨h.2.1, h.2.2.2.2.2.1, h.2.2.2.1, h.1⟩

theorem timer_low_keeps (s : Sys) :
    (next s (Ev.timer false)).keypad.clicks = s.keypad.clicks ∧
      (next s (Ev.timer false)).timer_active = s.timer_active ∧
      (next s (Ev.timer false)).tick = s.tick ∧
      (next s (Ev.timer false)).keypad.num = s.keypad.num ∧
      (next s (Ev.timer false)).keypad.level = s.keypad.level := by
  cases h : s.timer_active
  · simp [next, h]
  · by_cases hc : (s.count + 1) % 65536 > 24
    · simp [next, h, keypad_cb, hc, levelOf, LOW]
    · simp [next, h, keypad_cb, hc, levelOf, LOW]

theorem press_keeps_clicks (s : Sys) (b : Button) (now : Nat) :
    (next s (Ev.edge b false now)).keypad.clicks = s.keypad.clicks ∧
      (next s (Ev.edge b false now)).timer_active = true ∧
      (next s (Ev.edge b false now)).keypad.level = LOW ∧
      (next s (Ev.edge b false now)).keypad.num = b.io_num := by
  cases b <;> cases h : s.timer_active <;>
    simp [next, gpio_task_handler, levelOf, LOW, Button.io_num, BUTTON_OK, BUTTON_DW,
      BUTTON_UP, BUTTON_MENU, h]

theorem timer_clicks (s : Sys) (h : Bool) :
    (next s (Ev.timer h)).keypad.clicks = s.keypad.clicks ∨
      (next s (Ev.timer h)).keypad.clicks = 0 := by
  simp only [next, keypad_cb]
  split_ifs <;> simp

theorem read_keeps (s : Sys) :
    (next s Ev.read).keypad.clicks = s.keypad.clicks ∧
      (next s Ev.read).timer_active = s.timer_active ∧
      (next s Ev.read).keypad.level = s.keypad.level ∧
      (next s Ev.read).keypad.num = s.keypad.num := by
  simp [next, lv_keypad_read]

/-- State reached by `chatter (n + 1)`: the click count is `n + 1` as long as it
fits 8 bits, and the timer is still running. -/
theorem chatter_counts (n : Nat) (hn : n < 255) :
    (exec init (chatter (n + 1))).keypad.clicks = n + 1 ∧
      (exec init (chatter (n + 1))).timer_active = true ∧
      (exec init (chatter (n + 1))).tick = 1041 + 40 * n := by
  induction n with
  | zero => exact ⟨rfl, rfl, rfl⟩
  | succ k ih =>
    obtain ⟨h1, h2, h3⟩ := ih (by omega)
    have hc : chatter (k + 1 + 1) = chatter (k + 1) ++
        [Ev.edge Button.ok true (1041 + 40 * (k + 1)), Ev.timer false, Ev.timer false] := rfl
    rw [hc, exec_append]
    generalize exec init (chatter (k + 1)) = s at h1 h2 h3
    simp only [exec]
    obtain ⟨r1, r2, r3, _⟩ := release_fields s Button.ok (1041 + 40 * (k + 1))
    have hd : tickDiff (1041 + 40 * (k + 1)) s.tick = 40 := by
      rw [h3]
      simp only [tickDiff]
      norm_num
      omega
    have hk : clicksAfterRelease s.keypad.clicks (tickDiff (1041 + 40 * (k + 1)) s.tick)
        = k + 1 + 1 := by
      rw [hd, h1]
      simp only [clicksAfterRelease]
      norm_num
      omega
    rw [hk] at r1 r2
    rw [if_pos (by omega)] at r2
    generalize next s (Ev.edge Button.ok true (1041 + 40 * (k + 1))) = s1 at r1 r2 r3
    obtain ⟨a1, a2, a3, _⟩ := timer_low_keeps s1
    generalize next s1 (Ev.timer false) = s2 at a1 a2 a3
    obtain ⟨b1, b2, b3, _⟩ := timer_low_keeps s2
    refine ⟨by rw [b1, a1, r1], by rw [b2, a2, r3, h2], ?_⟩
    rw [b3, a3, r2]
    norm_num
    omega

/-- What does hold of the resets: a step stops the timer only as a callback that
reads high with the incremented counter above 24, and such a callback also
clears the click count and the counter; a step that takes a non-zero click count
to 0 is such a callback or a release handled by the worker at click count 255
less than 300 ticks after the last click. -/
theorem reset_steps (s : Sys) (e : Ev) :
    (s.timer_active = true → (next s e).timer_active = false →
        e = Ev.timer true ∧ (s.count + 1) % 65536 > 24 ∧
          (next s e).keypad.clicks = 0 ∧ (next s e).count = 0) ∧
      (s.keypad.clicks ≠ 0 → (next s e).keypad.clicks = 0 →
        (e = Ev.timer true ∧ s.timer_active = true ∧ (s.count + 1) % 65536 > 24) ∨
          (∃ b now, e = Ev.edge b true now ∧ s.keypad.clicks % 256 = 255 ∧
            tickDiff now s.tick < 300)) := by
  cases e with
  | edge b high now =>
    cases high with
    | false =>
      obtain ⟨p1, p2, _⟩ := press_keeps_clicks s b now
      refine ⟨fun _ h => ?_, fun h0 h => ?_⟩
      · rw [p2] at h
        exact Bool.noConfusion h
      · rw [p1] at h
        exact absurd h h0
    | true =>
      obtain ⟨r1, _, r3, _⟩ := release_fields s b now
      refine ⟨fun ha h => ?_, fun h0 h => ?_⟩
      · rw [r3, ha] at h
        exact Bool.noConfusion h
      · refine Or.inr ⟨b, now, rfl, ?_⟩
        rw [r1] at h
        unfold clicksAfterRelease at h
        rw [if_neg h0] at h
        split_ifs at h with hd
        · exact ⟨by omega, hd⟩
        · exact absurd h h0
  | timer high =>
    cases ha : s.timer_active with
    | false =>
      refine ⟨fun h => Bool.noConfusion h, fun h0 h => ?_⟩
      simp only [next, ha] at h
      exact absurd h h0
    | true =>
      by_cases hc : (s.count + 1) % 65536 > 24
      · cases high with
        | false =>
          obtain ⟨k1, k2, _⟩ := timer_low_keeps s
          refine ⟨fun _ h => ?_, fun h0 h => ?_⟩
          · rw [k2, ha] at h
            exact Bool.noConfusion h
          · rw [k1] at h
            exact absurd h h0
        | true =>
          refine ⟨fun _ _ => ⟨rfl, hc, ?_, ?_⟩, fun _ _ => Or.inl ⟨rfl, rfl, hc⟩⟩
          · simp [next, ha, keypad_cb, hc, levelOf, HIGH]
          · simp [next, ha, keypad_cb, hc, levelOf, HIGH]
      · refine ⟨fun _ h => ?_, fun h0 h => ?_⟩
        · simp [next, ha, keypad_cb, hc] at h
        · simp [next, ha, keypad_cb, hc] at h
          exact absurd h h0
  | read =>
    obtain ⟨k1, k2, _⟩ := read_keeps s
    refine ⟨fun ha h => ?_, fun h0 h => ?_⟩
    · rw [k2, ha] at h
      exact Bool.noConfusion h
    · rw [k1] at h
      exact absurd h h0

/-- C6, the code at the failing input: after OK is pressed and the worker has
handled 255 events that read high, the click count is 255 with the timer
running; the next such event, handled by the worker, takes the 8-bit count to 0
while the timer keeps running, so the count is reset outside any timer
callback. -/
theorem worker_wraps_click_count :
    (exec init (chatter 255)).keypad.clicks = 255 ∧
      (exec init (chatter 255)).timer_active = true ∧
      (next (exec init (chatter 255)) (Ev.edge Button.ok true 11241)).keypad.clicks = 0 ∧
      (next (exec init (chatter 255)) (Ev.edge Button.ok true 11241)).timer_active = true := by
  have h := chatter_counts 254 (by norm_num)
  simp only [Nat.reduceAdd, Nat.reduceMul] at h
  obtain ⟨h1, h2, h3⟩ := h
  obtain ⟨r1, _, r3, _⟩ := release_fields (exec init (chatter 255)) Button.ok 11241
  refine ⟨h1, h2, ?_, by rw [r3, h2]⟩
  rw [r1, h1, h3]
  norm_num [clicksAfterRelease, tickDiff]

/-! ## Increments of the click count -/

set_option maxRecDepth 8000 in
/-- C7, as stated, fails: DOWN is pressed at tick 1000 and held, OK is clicked
at ticks 1101 to 1201, the 25th callback finalizes OK and stops the timer; when
DOWN is released at tick 2001 the worker increments the click count from 0 to 1
while the timer is stopped. -/
theorem click_counted_while_timer_stopped :
    (exec init (Ev.edge Button.dw false 1000 :: (periods 5 false ++
        Ev.edge Button.ok false 1101 :: (periods 5 false ++
        Ev.edge Button.ok true 1201 :: (periods 15 true ++
        List.replicate 100 Ev.read))))).timer_active = false ∧
      (exec init (Ev.edge Button.dw false 1000 :: (periods 5 false ++
        Ev.edge Button.ok false 1101 :: (periods 5 false ++
        Ev.edge Button.ok true 1201 :: (periods 15 true ++
        List.replicate 100 Ev.read))))).keypad.clicks = 0 ∧
      (next (exec init (Ev.edge Button.dw false 1000 :: (periods 5 false ++
        Ev.edge Button.ok false 1101 :: (periods 5 false ++
        Ev.edge Button.ok true 1201 :: (periods 15 true ++
        List.replicate 100 Ev.read))))) (Ev.edge Button.dw true 2001)).keypad.clicks = 1 := by
  decide

/-- On a clean schedule with the buttons pressed one at a time: while a button is
held the timer runs, the active line is that button and the last level seen is
low, so a step that changes the click count is either a callback that resets it
or the release of the held button handled in such a state. -/
theorem one_at_a_time_increment (e : Ev) (l : List Ev) :
    ∀ (s : Sys) (held : Option Button),
    (∀ b, held = some b →
      s.timer_active = true ∧ s.keypad.level = LOW ∧ s.keypad.num = b.io_num) →
    oneAtATime held (l ++ [e]) = true →
    (next (exec s l) e).keypad.clicks ≠ (exec s l).keypad.clicks →
    ((∃ h, e = Ev.timer h) ∧ (next (exec s l) e).keypad.clicks = 0) ∨
      (∃ b now, e = Ev.edge b true now ∧ (exec s l).timer_active = true ∧
        (exec s l).keypad.level = LOW ∧ (exec s l).keypad.num = b.io_num) := by
  induction l with
  | nil =>
    intro s held hinv hclean hchg
    simp only [exec] at hchg ⊢
    cases e with
    | edge b2 high now =>
      cases held with
      | none =>
        simp only [List.nil_append, oneAtATime, Bool.and_true, beq_iff_eq] at hclean
        subst hclean
        exact absurd (press_keeps_clicks s b2 now).1 hchg
      | some b0 =>
        simp only [List.nil_append, oneAtATime, Bool.and_true, Bool.and_eq_true,
          decide_eq_true_eq, beq_iff_eq] at hclean
        obtain ⟨hb, hh⟩ := hclean
        subst hb
        subst hh
        exact Or.inr ⟨b2, now, rfl, hinv b2 rfl⟩
    | timer h =>
      rcases timer_clicks s h with h1 | h1
      · exact absurd h1 hchg
      · exact Or.inl ⟨⟨h, rfl⟩, h1⟩
    | read => exact absurd (read_keeps s).1 hchg
  | cons e0 rest ih =>
    intro s held hinv hclean hchg
    simp only [exec] at hchg ⊢
    cases e0 with
    | edge b2 high now =>
      cases held with
      | none =>
        simp only [List.cons_append, oneAtATime, Bool.and_eq_true, beq_iff_eq] at hclean
        obtain ⟨hh, hrest⟩ := hclean
        subst hh
        refine ih _ (some b2) ?_ hrest hchg
        intro b hb
        simp only [Option.some.injEq] at hb
        subst hb
        exact (press_keeps_clicks s b2 now).2
      | some b0 =>
        simp only [List.cons_append, oneAtATime, Bool.and_eq_true, decide_eq_true_eq,
          beq_iff_eq] at hclean
        obtain ⟨_, hrest⟩ := hclean
        refine ih _ none ?_ hrest hchg
        intro b hb
        exact Option.noConfusion hb
    | timer h =>
      simp only [List.cons_append, oneAtATime, Bool.and_eq_true, beq_iff_eq] at hclean
      obtain ⟨hh, hrest⟩ := hclean
      refine ih _ held ?_ hrest hchg
      intro b hb
      subst hb
      subst hh
      obtain ⟨i1, i2, i3⟩ := hinv b rfl
      obtain ⟨_, k2, _, k4, k5⟩ := timer_low_keeps s
      exact ⟨by rw [show (some b).isNone = false from rfl, k2, i1],
        by rw [show (some b).isNone = false from rfl, k5, i2],
        by rw [show (some b).isNone = false from rfl, k4, i3]⟩
    | read =>
      simp only [List.cons_append, oneAtATime] at hclean
      refine ih _ held ?_ hclean hchg
      intro b hb
      obtain ⟨i1, i2, i3⟩ := hinv b hb
      obtain ⟨_, k2, k3, k4⟩ := read_keeps s
      exact ⟨by rw [k2, i1], by rw [k3, i2], by rw [k4, i3]⟩

/-- C7, amended: on every clean schedule from start-up in which the buttons are
pressed one at a time (any of the four buttons, each press followed by the
release of the same button before the next press; callbacks read the level of
the active line), a step that changes the click count is either a timer callback
that resets it to 0, or a release handled by the worker while the timer is
running and the active button, the one released, was last seen low; polls and
handled presses never change it. -/
theorem click_increment_needs_open_window (l : List Ev) (e : Ev)
    (hclean : oneAtATime none (l ++ [e]) = true)
    (hchg : (next (exec init l) e).keypad.clicks ≠ (exec init l).keypad.clicks) :
    ((∃ h, e = Ev.timer h) ∧ (next (exec init l) e).keypad.clicks = 0) ∨
      (∃ b now, e = Ev.edge b true now ∧ (exec init l).timer_active = true ∧
        (exec init l).keypad.level = LOW ∧ (exec init l).keypad.num = b.io_num) :=
  one_at_a_time_increment e l init none (fun _ h => Option.noConfusion h) hclean hchg

/-- Witness for C7: MENU clicked at ticks 1000 to 1041, OK pressed at tick 1101
and released at tick 1141; the release of OK takes the click count from 1 to 2,
with the timer running and OK last seen low. -/
theorem click_increment_needs_open_window_witness :
    ((∃ h, Ev.edge Button.ok true 1141 = Ev.timer h) ∧
        (next (exec init (Ev.edge Button.menu false 1000 :: (periods 2 false ++
          Ev.edge Button.menu true 1041 :: (periods 3 true ++
          Ev.edge Button.ok false 1101 :: periods 2 false))))
          (Ev.edge Button.ok true 1141)).keypad.clicks = 0) ∨
      (∃ b now, Ev.edge Button.ok true 1141 = Ev.edge b true now ∧
        (exec init (Ev.edge Button.menu false 1000 :: (periods 2 false ++
          Ev.edge Button.menu true 1041 :: (periods 3 true ++
          Ev.edge Button.ok false 1101 :: periods 2 false)))).timer_active = true ∧
        (exec init (Ev.edge Button.menu false 1000 :: (periods 2 false ++
          Ev.edge Button.menu true 1041 :: (periods 3 true ++
          Ev.edge Button.ok false 1101 :: periods 2 false)))).keypad.level = LOW ∧
        (exec init (Ev.edge Button.menu false 1000 :: (periods 2 false ++
          Ev.edge Button.menu true 1041 :: (periods 3 true ++
          Ev.edge Button.ok false 1101 :: periods 2 false)))).keypad.num = b.io_num) :=
  click_increment_needs_open_window
    (Ev.edge Button.menu false 1000 :: (periods 2 false ++
      Ev.edge Button.menu true 1041 :: (periods 3 true ++
      Ev.edge Button.ok false 1101 :: periods 2 false)))
    (Ev.edge Button.ok true 1141) (by decide) (by decide)

/-! ## Debounce Worker -/

/-- C8: for a dequeued event whose line reads high, the click count becomes 1 if
it was 0 and stays otherwise, is then incremented once more (as an 8-bit
counter) exactly when the unsigned tick difference to the recorded last click is
below 300, the recorded tick becomes the current tick whenever the resulting
count is positive, the pending symbol and the timer are untouched, and the
active line and level are those of the event. -/
theorem gpio_task_handler_release (s : Sys) (b : Button) (now : Nat) (hnow : now < 2 ^ 32) :
    (gpio_task_handler s b.io_num HIGH now).keypad.clicks =
        (if tickDiff now s.tick < 300
          then ((if s.keypad.clicks = 0 then 1 else s.keypad.clicks) + 1) % 256
          else (if s.keypad.clicks = 0 then 1 else s.keypad.clicks)) ∧
      ((gpio_task_handler s b.io_num HIGH now).keypad.clicks > 0 →
        (gpio_task_handler s b.io_num HIGH now).tick = now) ∧
      ((gpio_task_handler s b.io_num HIGH now).keypad.clicks = 0 →
        (gpio_task_handler s b.io_num HIGH now).tick = s.tick) ∧
      (gpio_task_handler s b.io_num HIGH now).keypad.state = s.keypad.state ∧
      (gpio_task_handler s b.io_num HIGH now).timer_active = s.timer_active ∧
      (gpio_task_handler s b.io_num HIGH now).keypad.num = b.io_num ∧
      (gpio_task_handler s b.io_num HIGH now).keypad.level = HIGH := by
  have hm : now % 4294967296 = now := Nat.mod_eq_of_lt (by simpa using hnow)
  cases b <;>
    simp [gpio_task_handler, HIGH, Button.io_num, BUTTON_OK, BUTTON_DW, BUTTON_UP,
      BUTTON_MENU, tickDiff, hm] <;>
    split_ifs <;> simp_all <;> omega

/-- Witness for C8: the first release on OK at tick 1000 from the start-up
state sets the click count to 1 and records tick 1000. -/
theorem gpio_task_handler_release_witness :
    (gpio_task_handler init Button.ok.io_num HIGH 1000).keypad.clicks = 1 ∧
      (gpio_task_handler init Button.ok.io_num HIGH 1000).tick = 1000 :=
  ⟨(gpio_task_handler_release init Button.ok 1000 (by norm_num)).1.trans (by decide),
    (gpio_task_handler_release init Button.ok 1000 (by norm_num)).2.1 (by decide)⟩

/-! ## Interrupt bracketing -/

theorem bracketed_boot : Bracketed boot := by
  simp [Bracketed, boot]

theorem bracketed_step {w w1 : Board} (a : Act) (h : Bracketed w) (hs : w.step a = some w1) :
    Bracketed w1 := by
  obtain ⟨hnd, hq, hh⟩ := h
  cases a with
  | isr b =>
    simp only [Board.step] at hs
    split_ifs at hs with hen
    simp only [Option.some.injEq] at hs
    subst hs
    have hbq : b ∉ w.gpio_evt_queue := fun hb => by
      have := hq b hb
      rw [hen] at this
      exact Bool.noConfusion this
    unfold gpio_isr_handler
    simp only
    split_ifs with hlen
    · refine ⟨?_, ?_, ?_⟩
      · simp only
        rw [List.nodup_append]
        refine ⟨hnd, List.nodup_singleton b, ?_⟩
        intro x hx hx2
        rw [List.mem_singleton] at hx2
        subst hx2
        exact hbq hx
      · intro x hx
        simp only [List.mem_append, List.mem_singleton] at hx
        simp only
        rcases hx with hx | hx
        · split_ifs
          · rfl
          · exact hq x hx
        · simp [hx]
      · intro x hx
        simp only at hx
        obtain ⟨hx1, hx2⟩ := hh x hx
        have hxb : x ≠ b := fun e => by
          rw [e, hen] at hx1
          exact Bool.noConfusion hx1
        simp only [List.mem_append, List.mem_singleton]
        refine ⟨by simp [hxb, hx1], ?_⟩
        rintro (h1 | h1)
        · exact hx2 h1
        · exact hxb h1
    · refine ⟨hnd, ?_, ?_⟩
      · intro x hx
        simp only
        split_ifs
        · rfl
        · exact hq x hx
      · intro x hx
        obtain ⟨hx1, hx2⟩ := hh x hx
        refine ⟨?_, hx2⟩
        simp only
        split_ifs
        · rfl
        · exact hx1
  | receive high now =>
    simp only [Board.step] at hs
    split at hs
    · rename_i b q hnone hcons
      simp only [Option.some.injEq] at hs
      subst hs
      rw [hcons] at hnd hq
      refine ⟨(List.nodup_cons.mp hnd).2, ?_, ?_⟩
      · intro x hx
        exact hq x (List.mem_cons_of_mem _ hx)
      · intro x hx
        simp only [Option.some.injEq] at hx
        subst hx
        exact ⟨hq b (List.mem_cons_self _ _), (List.nodup_cons.mp hnd).1⟩
    · exact Option.noConfusion hs
  | finish =>
    simp only [Board.step] at hs
    split at hs
    · rename_i b hb
      simp only [Option.some.injEq] at hs
      subst hs
      obtain ⟨_, hb2⟩ := hh b hb
      refine ⟨hnd, ?_, ?_⟩
      · intro x hx
        have hxb : x ≠ b := fun e => hb2 (e ▸ hx)
        simp [hxb, hq x hx]
      · intro x hx
        exact Option.noConfusion hx
    · exact Option.noConfusion hs

theorem bracketed_run (acts : List Act) : ∀ w w1 : Board, Bracketed w →
    w.run acts = some w1 → Bracketed w1 := by
  induction acts with
  | nil =>
    intro w w1 h hr
    simp only [Board.run, Option.some.injEq] at hr
    exact hr ▸ h
  | cons a rest ih =>
    intro w w1 h hr
    simp only [Board.run] at hr
    split at hr
    · rename_i w2 hw2
      exact ih w2 w1 (bracketed_step a h hw2) hr
    · exact Option.noConfusion hr

/-- C10: in every state reached from start-up by interrupt, receive and finish
steps, each line that is queued or held by the worker has its interrupt
disabled; so the queue has no duplicates, holds at most 4 of its 10 slots, and
the enqueue of an interrupt that can fire succeeds. -/
theorem interrupt_bracketing (acts : List Act) (w : Board) (h : boot.run acts = some w) :
    (∀ b, (b ∈ w.gpio_evt_queue ∨ w.handling = some b) → w.intr_enabled b = false) ∧
      w.gpio_evt_queue.Nodup ∧
      w.gpio_evt_queue.length ≤ 4 ∧ 4 < QUEUE_LENGTH ∧
      (∀ b, w.intr_enabled b = true →
        (gpio_isr_handler w b).gpio_evt_queue = w.gpio_evt_queue ++ [b]) := by
  obtain ⟨hnd, hq, hh⟩ := bracketed_run acts boot w bracketed_boot h
  have hlen : w.gpio_evt_queue.length ≤ 4 := by
    have := List.Nodup.length_le_card hnd
    simpa using this
  refine ⟨?_, hnd, hlen, by decide, ?_⟩
  · rintro b (hb | hb)
    · exact hq b hb
    · exact (hh b hb).1
  · intro b _
    have : w.gpio_evt_queue.length < QUEUE_LENGTH := by
      unfold QUEUE_LENGTH
      omega
    simp [gpio_isr_handler, this]

/-- Witness for C10: OK and MENU interrupt, the worker receives OK and then a
DOWN interrupt arrives; MENU and DOWN are queued, all three lines are masked. -/
theorem interrupt_bracketing_witness :
    ∃ w, boot.run [Act.isr Button.ok, Act.isr Button.menu, Act.receive false 1000,
        Act.isr Button.dw] = some w ∧
      w.gpio_evt_queue = [Button.menu, Button.dw] ∧ w.handling = some Button.ok ∧
      w.gpio_evt_queue.length ≤ 4 ∧ w.gpio_evt_queue.Nodup :=
  ⟨_, rfl, rfl, rfl,
    (interrupt_bracketing [Act.isr Button.ok, Act.isr Button.menu, Act.receive false 1000,
      Act.isr Button.dw] _ rfl).2.2.1,
    (interrupt_bracketing [Act.isr Button.ok, Act.isr Button.menu, Act.receive false 1000,
      Act.isr Button.dw] _ rfl).2.1⟩

end Keypad
